import Mathlib

/-!
# Verification of the btrack `BayesianTracker` wrapper (`btrack/core.py`)

This file gives a shallow embedding of the `BayesianTracker` class from
`btrack/core.py` together with a model of the underlying tracking engine.
The Python wrapper delegates the actual frame-by-frame tracking, hypothesis
generation, optimisation and merging to a C++ shared library (`self._lib`)
that is not part of the repository's Python sources; those parts are
modelled from the specification and are marked `Modelled from the spec:` in
their doc comments.  Everything else (identifier assignment in `append`,
the `frame_range` / `n_dummies` / `refs` / `lbep` accessors, the
initialisation guards of `track` / `step`, and the control flow of
`hypotheses` / `optimise`) is translated directly from `core.py`.
-/

namespace BTrack

/-- A detection, mirroring `btypes.PyTrackObject`: an identifier (assigned at
append time), a frame index `t`, and spatial coordinates.  Coordinates are
modelled as integers. -/
structure PyTrackObject where
  ID : Int := 0
  t : Nat
  x : Int := 0
  y : Int := 0
  z : Int := 0
deriving DecidableEq, Repr

/-- Modelled from the spec: a tracklet as stored by the (unexposed) engine.
`refs` is the ordered list of object references, non-negative for real
objects and strictly negative for dummy objects, as exposed by the `refs`
accessor.  `px, py, pz` is the predicted position (the position of the last
assigned real object, a constant-position simplification of the Kalman
prediction).  `lost` counts consecutive misses; a tracklet whose miss
counter exceeds `max_lost` is `terminated`. -/
structure EngTrack where
  label : Nat
  refs : List Int
  px : Int
  py : Int
  pz : Int
  startT : Nat
  stopT : Nat
  lost : Nat
  terminated : Bool
  parent : Nat := 0
  rootID : Nat
  generation : Nat := 0
deriving DecidableEq, Repr

/-- Modelled from the spec: the state of the C++ tracking engine
(instantiated by `libwrapper.get_library()`, not part of the Python
sources).  It holds the appended objects, the tracklets grown so far, the
next frame to process, the number of dummy objects created so far, and the
motion-model parameters pushed in by `configure` (`max_lost` and the
squared search radius used for gating). -/
structure Engine where
  objects : List PyTrackObject := []
  tracks : List EngTrack := []
  frame : Nat := 0
  nDummies : Nat := 0
  maxLost : Nat := 1
  radius2 : Int := 100
deriving DecidableEq, Repr

/-- Motion-model configuration: only the fields the engine model consumes. -/
structure MotionModel where
  max_lost : Nat := 5
deriving DecidableEq, Repr

/-- Hypothesis-model configuration (`config.hypothesis_model`); only its
presence matters for the claims below. -/
structure HypothesisModel where
  relax : Bool := true
deriving DecidableEq, Repr

/-- Modelled from the spec: `config.TrackerConfig` (defined in
`btrack/config.py`, outside the provided sources).  `frame_range` defaults
to `[0, 0]`, matching the wrapper's initial `_frame_range`; `motion_model`,
`object_model` and `hypothesis_model` default to `None`. -/
structure TrackerConfig where
  verbose : Bool := true
  frame_range : Nat × Nat := (0, 0)
  motion_model : Option MotionModel := none
  hypothesis_model : Option HypothesisModel := none
  max_search_radius : Int := 100
deriving DecidableEq, Repr

/-- The Python-level tracker object (`BayesianTracker`).  `initialised`
is `self._initialised`, `objects` is `self._objects`,
`frameRangeInternal` is `self._frame_range`, and `engine` is the state
behind `self._engine`. -/
structure BayesianTracker where
  initialised : Bool
  cfg : TrackerConfig
  engine : Engine
  objects : List PyTrackObject
  frameRangeInternal : Nat × Nat
deriving DecidableEq, Repr

/-- `BayesianTracker.__init__`: not initialised, default configuration, an
empty engine, no stored objects, `_frame_range = [0, 0]`. -/
def btrackInit (verbose : Bool) : BayesianTracker :=
  { initialised := false
    cfg := { verbose := verbose }
    engine := {}
    objects := []
    frameRangeInternal := (0, 0) }

/-- `BayesianTracker.configure`: stores the configuration, pushes the
motion-model parameters and the search radius into the engine (the
`__setattr__` dispatch into `_motion_model` / `_max_search_radius`), and
sets `self._initialised = True`. -/
def configureOp (bt : BayesianTracker) (c : TrackerConfig) : BayesianTracker :=
  { bt with
    cfg := c
    initialised := true
    engine :=
      { bt.engine with
        maxLost := (c.motion_model.map (·.max_lost)).getD bt.engine.maxLost
        radius2 := c.max_search_radius * c.max_search_radius } }

/-- The `frame_range` property: `tuple(self.configuration.frame_range)` —
it reads the *configuration's* frame range, not the wrapper's internal
`self._frame_range`. -/
def frame_range (bt : BayesianTracker) : Nat × Nat :=
  bt.cfg.frame_range

/-- Python exceptions that the wrapper can raise. -/
inductive PyErr where
  | typeError
  | attributeError
deriving DecidableEq, Repr

/-- An element of the list passed to `append`: either a genuine
`PyTrackObject` or some other value (which fails the `isinstance` check). -/
inductive TrackItem where
  | obj (o : PyTrackObject)
  | other
deriving DecidableEq, Repr

/-- The result of the `append` loop: the processed (ID-assigned) objects,
the updated upper frame bound, and whether a `TypeError` was raised. -/
structure AppendLoopResult where
  newObjs : List PyTrackObject
  frameHi : Nat
  err : Bool
deriving DecidableEq, Repr

/-- The `for idx, obj in enumerate(objects)` loop of
`BayesianTracker.append`: each object receives `ID = idx + len(self._objects)`
(the stored-object count `n` is constant during the loop, since
`self._objects` is only extended after it), then the `isinstance` check
runs, then `self._frame_range[1] = max(obj.t, self._frame_range[1])` and
`self._lib.append`.  A non-`PyTrackObject` element aborts the loop with a
`TypeError` after the preceding elements have already been pushed to the
engine. -/
def appendLoop : Nat → Nat → List TrackItem → AppendLoopResult
  | _, fr, [] => ⟨[], fr, false⟩
  | n, fr, TrackItem.obj o :: rest =>
      let o' := { o with ID := (n : Int) }
      let r := appendLoop (n + 1) (max o.t fr) rest
      ⟨o' :: r.newObjs, r.frameHi, r.err⟩
  | _, fr, TrackItem.other :: _ => ⟨[], fr, true⟩

/-- `BayesianTracker.append`: runs the loop above; every processed object is
pushed into the engine and the internal frame range updated as the loop
goes; `self._objects += objects` runs only if the loop completes without
raising.  Returns the new tracker state together with the raised exception,
if any. -/
def appendOp (bt : BayesianTracker) (items : List TrackItem) :
    BayesianTracker × Option PyErr :=
  let r := appendLoop bt.objects.length bt.frameRangeInternal.2 items
  let eng := { bt.engine with objects := bt.engine.objects ++ r.newObjs }
  if r.err then
    ({ bt with engine := eng,
               frameRangeInternal := (bt.frameRangeInternal.1, r.frameHi) },
     some PyErr.typeError)
  else
    ({ bt with engine := eng,
               frameRangeInternal := (bt.frameRangeInternal.1, r.frameHi),
               objects := bt.objects ++ r.newObjs },
     none)

/-- `append` on a list that consists entirely of `PyTrackObject`s (the
normal, non-raising case). -/
def appendObjects (bt : BayesianTracker) (objs : List PyTrackObject) :
    BayesianTracker :=
  (appendOp bt (objs.map TrackItem.obj)).1

/-- A sequence of `append` calls. -/
def appendBatches (bt : BayesianTracker) :
    List (List PyTrackObject) → BayesianTracker
  | [] => bt
  | objs :: rest => appendBatches (appendObjects bt objs) rest

/-- The reference list of IDs produced by the append loop: object `i` of the
batch gets identifier `n + i`. -/
def assignIDs : Nat → List PyTrackObject → List PyTrackObject
  | _, [] => []
  | n, o :: rest => { o with ID := (n : Int) } :: assignIDs (n + 1) rest

/-! ## The tracking engine (modelled from the spec)

The per-frame loop follows §4.1 of the specification: predict, score,
assign (no object claimed by more than one tracklet; unmatched objects
spawn new tracklets; unmatched tracklets receive a dummy and increment
their miss counter), update, terminate.  The positional score is modelled
as squared Euclidean distance gated by the squared search radius; the
Kalman prediction is simplified to a constant-position prediction.  None of
the claims below depend on the numeric form of the score. -/

/-- Squared distance of an object to a tracklet's predicted position. -/
def dist2 (tr : EngTrack) (o : PyTrackObject) : Int :=
  (o.x - tr.px) * (o.x - tr.px) + (o.y - tr.py) * (o.y - tr.py) +
    (o.z - tr.pz) * (o.z - tr.pz)

/-- Modelled from the spec: pick the best-scoring (nearest, within the
gating radius) candidate object for a tracklet; ties prefer the earlier
object in the list. -/
def bestCandidate (tr : EngTrack) (r2 : Int) :
    List PyTrackObject → Option PyTrackObject
  | [] => none
  | o :: rest =>
    if dist2 tr o ≤ r2 then
      match bestCandidate tr r2 rest with
      | none => some o
      | some c => if dist2 tr o ≤ dist2 tr c then some o else some c
    else bestCandidate tr r2 rest

/-- Extend a tracklet with a matched real object: append its reference,
move the predicted position to the observation, reset the miss counter. -/
def extendTrack (tr : EngTrack) (o : PyTrackObject) (f : Nat) : EngTrack :=
  { tr with refs := tr.refs ++ [o.ID], px := o.x, py := o.y, pz := o.z,
            lost := 0, stopT := f }

/-- Modelled from the spec: the per-frame assignment sweep.  Tracklets are
visited in order; each non-terminated tracklet claims its best unclaimed
candidate (removing it from the pool, so no object is claimed twice), or —
if no candidate is in range — increments its miss counter, terminating when
the counter exceeds `max_lost` and otherwise receiving a fresh dummy
reference `-(nD+1)`.  Returns the updated tracklets, the unclaimed objects,
and the new dummy count. -/
def assignFrame (maxLost : Nat) (r2 : Int) (f : Nat) :
    List EngTrack → List PyTrackObject → Nat →
    List EngTrack × List PyTrackObject × Nat
  | [], objs, nD => ([], objs, nD)
  | tr :: rest, objs, nD =>
    if tr.terminated then
      ((tr :: (assignFrame maxLost r2 f rest objs nD).1),
       (assignFrame maxLost r2 f rest objs nD).2)
    else
      match bestCandidate tr r2 objs with
      | some o =>
        ((extendTrack tr o f :: (assignFrame maxLost r2 f rest (objs.erase o) nD).1),
         (assignFrame maxLost r2 f rest (objs.erase o) nD).2)
      | none =>
        if maxLost < tr.lost + 1 then
          (({ tr with lost := tr.lost + 1, terminated := true } ::
              (assignFrame maxLost r2 f rest objs nD).1),
           (assignFrame maxLost r2 f rest objs nD).2)
        else
          (({ tr with lost := tr.lost + 1,
                      refs := tr.refs ++ [-((nD : Int) + 1)],
                      stopT := f } ::
              (assignFrame maxLost r2 f rest objs (nD + 1)).1),
           (assignFrame maxLost r2 f rest objs (nD + 1)).2)

/-- Modelled from the spec: every unclaimed object spawns a new active
tracklet with a fresh sequential label, parent 0, itself as root, and
generation 0. -/
def spawnTracks (f : Nat) : Nat → List PyTrackObject → List EngTrack
  | _, [] => []
  | label, o :: rest =>
    { label := label, refs := [o.ID], px := o.x, py := o.y, pz := o.z,
      startT := f, stopT := f, lost := 0, terminated := false,
      parent := 0, rootID := label, generation := 0 } ::
      spawnTracks f (label + 1) rest

/-- Modelled from the spec: process one frame — gather the detections of
the current frame, run the assignment sweep, spawn tracklets for the
unclaimed detections, and advance the frame counter. -/
def frameObjects (e : Engine) : List PyTrackObject :=
  e.objects.filter (fun o => o.t = e.frame)

def frameAssign (e : Engine) : List EngTrack × List PyTrackObject × Nat :=
  assignFrame e.maxLost e.radius2 e.frame e.tracks (frameObjects e) e.nDummies

def processFrame (e : Engine) : Engine :=
  { e with
    tracks := (frameAssign e).1 ++
      spawnTracks e.frame ((frameAssign e).1.length + 1) (frameAssign e).2.1
    nDummies := (frameAssign e).2.2
    frame := e.frame + 1 }

/-- One past the last frame holding a detection: the engine processes
frames `0, …, max t` (`1 + frame_range[1]` frames in the wrapper's log
message). -/
def engineLimit (e : Engine) : Nat :=
  (e.objects.foldr (fun o a => max o.t a) 0) + 1

/-- Modelled from the spec: `lib.step(engine, n)` — run up to `n` frames of
tracking, stopping early when all frames are processed. -/
def engineStepN : Engine → Nat → Engine
  | e, 0 => e
  | e, n + 1 =>
    if engineLimit e ≤ e.frame then e
    else engineStepN (processFrame e) n

/-- Modelled from the spec: `lib.track(engine)` — run tracking over all
remaining frames. -/
def engineTrack (e : Engine) : Engine :=
  engineStepN e (engineLimit e - e.frame)

/-! ## Read-only accessors (translated from `core.py`) -/

/-- `n_tracks`: the number of tracks found. -/
def n_tracks (bt : BayesianTracker) : Nat :=
  bt.engine.tracks.length

/-- The `refs` property: per track, the list of object references
(non-negative: real objects; negative: dummies). -/
def refsOf (bt : BayesianTracker) : List (List Int) :=
  bt.engine.tracks.map (·.refs)

/-- All references across all tracks
(`itertools.chain.from_iterable(self.refs)`). -/
def allRefs (bt : BayesianTracker) : List Int :=
  (refsOf bt).flatten

/-- `n_dummies`: the number of negative references across all tracks,
`len([d for d in chain.from_iterable(self.refs) if d < 0])`. -/
def n_dummies (bt : BayesianTracker) : Nat :=
  ((allRefs bt).filter (fun d => d < 0)).length

/-- The sum of all track lengths (`track_length` per track, i.e. the
number of references, real or dummy). -/
def sumTrackLengths (bt : BayesianTracker) : Nat :=
  (bt.engine.tracks.map (·.refs.length)).sum

/-- One row of the LBEP table: `(ID, start, stop, parent, root,
generation)` as produced by `lbep` via `__getitem__`. -/
def lbepEntry (tr : EngTrack) : Nat × Nat × Nat × Nat × Nat × Nat :=
  (tr.label, tr.startT, tr.stopT, tr.parent, tr.rootID, tr.generation)

/-- The `lbep` property: one LBEP row per track. -/
def lbep (bt : BayesianTracker) : List (Nat × Nat × Nat × Nat × Nat × Nat) :=
  bt.engine.tracks.map lbepEntry

/-! ## Tracking entry points (translated from `core.py`) -/

/-- The per-step statistics record (`btypes.PyTrackingInfo`), reduced to
the field the wrapper inspects: whether the tracker is still active. -/
structure TrackingInfo where
  tracker_active : Bool
deriving DecidableEq, Repr

/-- Statistics returned after stepping the engine. -/
def mkStats (e : Engine) : TrackingInfo :=
  { tracker_active := decide (e.frame < engineLimit e) }

/-- `BayesianTracker.track`: if the tracker has not been configured it logs
an error and returns `None` — it does *not* raise; otherwise it runs the
engine over all frames and reports statistics. -/
def trackOp (bt : BayesianTracker) :
    Except PyErr (Option TrackingInfo × BayesianTracker) :=
  if bt.initialised = false then Except.ok (none, bt)
  else
    let e := engineTrack bt.engine
    Except.ok (some (mkStats e), { bt with engine := e })

/-- `BayesianTracker.step(n)`: if the tracker has not been configured it
returns `None` (no exception); otherwise it runs `n` frames of tracking
and returns the statistics. -/
def stepOp (bt : BayesianTracker) (n : Nat) :
    Except PyErr (Option TrackingInfo × BayesianTracker) :=
  if bt.initialised = false then Except.ok (none, bt)
  else
    let e := engineStepN bt.engine n
    Except.ok (some (mkStats e), { bt with engine := e })

/-- The tracker state after `track()` (identity when not initialised,
matching the early `return`). -/
def trackResultState (bt : BayesianTracker) : BayesianTracker :=
  match trackOp bt with
  | Except.ok (_, bt') => bt'
  | Except.error _ => bt

/-- Iterated paged stepping, as performed by the caller's loop in
`track_interactive`: apply `step` for each page size in turn. -/
def stepFold : BayesianTracker → List Nat → BayesianTracker
  | bt, [] => bt
  | bt, n :: ns =>
    match stepOp bt n with
    | Except.ok (_, bt') => stepFold bt' ns
    | Except.error _ => bt

/-! ## Hypotheses and optimisation (control flow from `core.py`) -/

/-- A scored candidate lineage event; the content is irrelevant to the
claims, which quantify over the generator. -/
structure Hypothesis where
  htype : Nat
  tracks : List Nat
  score : Int
deriving DecidableEq, Repr

/-- `BayesianTracker.hypotheses`: raises (`AttributeError`, "Hypothesis
model has not been specified.") when no hypothesis model is configured;
otherwise delegates to the engine's hypothesis generator over
`self._frame_range` (the generator `createHyps` models
`lib.create_hypotheses` / `lib.get_hypothesis`, which live outside the
Python sources). -/
def hypothesesOp
    (createHyps : Engine → HypothesisModel → Nat → Nat → List Hypothesis)
    (bt : BayesianTracker) : Except PyErr (List Hypothesis) :=
  match bt.cfg.hypothesis_model with
  | none => Except.error PyErr.attributeError
  | some hm =>
      Except.ok
        (createHyps bt.engine hm bt.frameRangeInternal.1 bt.frameRangeInternal.2)

/-- `BayesianTracker.optimise`: accessing `self.hypothesis_model.name` on a
missing model raises; with a model, it generates hypotheses, returns `[]`
when there are none, runs the optimiser (`selector`, modelling
`TrackOptimiser.optimise` from `btrack/optimise/optimiser.py`, outside the
provided sources), returns `[]` without merging when the selection is
empty, and otherwise merges (`merge` models `lib.merge`) and returns the
selected hypotheses. -/
def optimiseOp
    (createHyps : Engine → HypothesisModel → Nat → Nat → List Hypothesis)
    (selector : List Hypothesis → List Nat)
    (merge : Engine → List Nat → Engine)
    (bt : BayesianTracker) :
    Except PyErr (List Hypothesis × BayesianTracker) :=
  match bt.cfg.hypothesis_model with
  | none => Except.error PyErr.attributeError
  | some _ =>
    match hypothesesOp createHyps bt with
    | Except.error e => Except.error e
    | Except.ok hyps =>
      if hyps.isEmpty then Except.ok ([], bt)
      else
        let selected := selector hyps
        let optimised := selected.filterMap (fun i => hyps.get? i)
        if optimised.isEmpty then Except.ok ([], bt)
        else Except.ok (optimised, { bt with engine := merge bt.engine selected })

/-! ## Basic lemmas about `append` -/

/-- The upper frame bound maintained by the append loop:
`self._frame_range[1]` folded with `max(obj.t, ·)` over a batch. -/
def frameFold (fr : Nat) (objs : List PyTrackObject) : Nat :=
  objs.foldl (fun a o => max o.t a) fr

theorem assignIDs_length (n : Nat) (objs : List PyTrackObject) :
    (assignIDs n objs).length = objs.length := by
  induction objs generalizing n with
  | nil => rfl
  | cons o rest ih => simp [assignIDs, ih]

theorem assignIDs_map_ID (n : Nat) (objs : List PyTrackObject) :
    (assignIDs n objs).map (·.ID) = (List.range' n objs.length).map Int.ofNat := by
  induction objs generalizing n with
  | nil => rfl
  | cons o rest ih => simp [assignIDs, List.range'_succ, ih]

/-- Running the append loop over a batch of genuine `PyTrackObject`s:
no error, IDs assigned sequentially from `n`, frame bound folded. -/
theorem appendLoop_map_obj (objs : List PyTrackObject) (n fr : Nat) :
    appendLoop n fr (objs.map TrackItem.obj) =
      ⟨assignIDs n objs, frameFold fr objs, false⟩ := by
  induction objs generalizing n fr with
  | nil => rfl
  | cons o rest ih => simp [appendLoop, assignIDs, frameFold, ih, List.foldl_cons]

/-- The state change performed by a successful `append` call. -/
theorem appendObjects_eq (bt : BayesianTracker) (objs : List PyTrackObject) :
    appendObjects bt objs =
      { bt with
        engine := { bt.engine with
          objects := bt.engine.objects ++ assignIDs bt.objects.length objs }
        frameRangeInternal :=
          (bt.frameRangeInternal.1, frameFold bt.frameRangeInternal.2 objs)
        objects := bt.objects ++ assignIDs bt.objects.length objs } := by
  simp [appendObjects, appendOp, appendLoop_map_obj]

/-- The append loop on a batch whose first `k` elements are genuine objects
followed by a non-`PyTrackObject`: the `k` objects are processed (IDs
assigned, frame bound updated) and then a `TypeError` aborts the loop. -/
theorem appendLoop_map_obj_other (goods : List PyTrackObject)
    (rest : List TrackItem) (n fr : Nat) :
    appendLoop n fr (goods.map TrackItem.obj ++ TrackItem.other :: rest) =
      ⟨assignIDs n goods, frameFold fr goods, true⟩ := by
  induction goods generalizing n fr with
  | nil => rfl
  | cons o gs ih => simp [appendLoop, assignIDs, frameFold, ih, List.foldl_cons]

theorem appendBatches_cfg (batches : List (List PyTrackObject))
    (bt : BayesianTracker) : (appendBatches bt batches).cfg = bt.cfg := by
  induction batches generalizing bt with
  | nil => rfl
  | cons objs rest ih => rw [appendBatches, ih, appendObjects_eq]

theorem appendBatches_frameRangeInternal (batches : List (List PyTrackObject))
    (bt : BayesianTracker) :
    (appendBatches bt batches).frameRangeInternal =
      (bt.frameRangeInternal.1,
       frameFold bt.frameRangeInternal.2 batches.flatten) := by
  induction batches generalizing bt with
  | nil => rfl
  | cons objs rest ih =>
    rw [appendBatches, ih, appendObjects_eq]
    simp [frameFold, List.foldl_append]

theorem frameFold_perm {l₁ l₂ : List PyTrackObject} (h : l₁.Perm l₂)
    (fr : Nat) : frameFold fr l₁ = frameFold fr l₂ := by
  haveI : Std.Commutative (fun (a b : Nat) => max a b) := ⟨Nat.max_comm⟩
  have hrc : ∀ (b : Nat) (o₁ o₂ : PyTrackObject),
      max o₂.t (max o₁.t b) = max o₁.t (max o₂.t b) := by
    intro b o₁ o₂; omega
  haveI : RightCommutative (fun (a : Nat) (o : PyTrackObject) => max o.t a) :=
    ⟨fun b o₁ o₂ => hrc b o₁ o₂⟩
  exact h.foldl_eq fr

/-- C1: the claim says tracking before configuration raises
`NotInitializedError`; in the code, `track()` / `step(n)` on an
unconfigured tracker log an error (`"Tracker has not been configured"`)
and return `None` without raising.  Here: `track()` on the freshly
constructed (unconfigured) tracker returns normally — no exception. -/
theorem track_before_configure_does_not_raise :
    trackOp (btrackInit true) = Except.ok (none, btrackInit true) ∧
    stepOp (btrackInit true) 1 = Except.ok (none, btrackInit true) := by
  constructor <;> rfl

/-- C1 (amended): for every tracker on which `configure()` has not
completed, `track()` and `step(n)` raise no exception: they log an error,
leave the tracker unchanged and return `None`. -/
theorem track_before_configure_returns_none (bt : BayesianTracker) (n : Nat)
    (h : bt.initialised = false) :
    trackOp bt = Except.ok (none, bt) ∧
    stepOp bt n = Except.ok (none, bt) := by
  rw [trackOp, stepOp, h]
  exact ⟨rfl, rfl⟩

/-- C1 (amended), witness: the unconfigured fresh tracker. -/
theorem track_before_configure_returns_none_witness :
    trackOp (btrackInit false) = Except.ok (none, btrackInit false) ∧
    stepOp (btrackInit false) 2 = Except.ok (none, btrackInit false) :=
  track_before_configure_returns_none (btrackInit false) 2 rfl

/-- C2: the claim says the `frame_range` accessor returns `[0, max(t)]`
over the appended objects; in the code the accessor returns
`self.configuration.frame_range`, which `append()` never updates (only the
internal `self._frame_range` is updated).  Appending one object at frame 5
leaves the accessor at the configured default `(0, 0) ≠ (0, 5)`. -/
theorem frame_range_accessor_counterexample :
    frame_range (appendObjects (btrackInit true) [{ t := 5 }]) ≠ (0, 5) := by
  decide

/-- C2 (amended): after any sequence of `append()` calls, the *internal*
`_frame_range` equals `[0, max(t) over all appended objects]`, invariant
under reordering of the appended objects; the `frame_range` *accessor*
returns the configured frame range, which `append()` does not modify. -/
theorem frame_range_internal_after_append (v : Bool)
    (batches batches' : List (List PyTrackObject))
    (hperm : batches.flatten.Perm batches'.flatten) :
    (appendBatches (btrackInit v) batches).frameRangeInternal
        = (0, frameFold 0 batches.flatten) ∧
    frame_range (appendBatches (btrackInit v) batches)
        = frame_range (btrackInit v) ∧
    (appendBatches (btrackInit v) batches).frameRangeInternal
        = (appendBatches (btrackInit v) batches').frameRangeInternal := by
  refine ⟨appendBatches_frameRangeInternal batches (btrackInit v), ?_, ?_⟩
  · rw [frame_range, frame_range, appendBatches_cfg]
  · rw [appendBatches_frameRangeInternal, appendBatches_frameRangeInternal,
        frameFold_perm hperm]

/-- C2 (amended), witness: appending `t = 1` then `t = 5` in two batches,
versus both in one batch in the opposite order. -/
theorem frame_range_internal_after_append_witness :
    (appendBatches (btrackInit true) [[{ t := 1 }], [{ t := 5 }]]).frameRangeInternal
        = (0, frameFold 0 [{ t := 1 }, { t := 5 }]) ∧
    frame_range (appendBatches (btrackInit true) [[{ t := 1 }], [{ t := 5 }]])
        = frame_range (btrackInit true) ∧
    (appendBatches (btrackInit true) [[{ t := 1 }], [{ t := 5 }]]).frameRangeInternal
        = (appendBatches (btrackInit true) [[{ t := 5 }, { t := 1 }]]).frameRangeInternal := by
  have h := frame_range_internal_after_append true
      [[{ t := 1 }], [{ t := 5 }]] [[{ t := 5 }, { t := 1 }]] (by decide)
  simpa using h

/-- After any sequence of appends starting from sequentially-numbered
stored objects, the stored objects remain numbered `0, 1, 2, …`. -/
theorem appendBatches_objects_ids (bs : List (List PyTrackObject)) :
    ∀ (bt : BayesianTracker),
      bt.objects.map (·.ID) = (List.range bt.objects.length).map Int.ofNat →
      (appendBatches bt bs).objects.map (·.ID) =
        (List.range (appendBatches bt bs).objects.length).map Int.ofNat := by
  induction bs with
  | nil => intro bt h; exact h
  | cons objs rest ih =>
    intro bt h
    rw [appendBatches]
    refine ih _ ?_
    rw [appendObjects_eq]
    simp only [List.map_append, List.length_append, assignIDs_length, h,
      assignIDs_map_ID]
    rw [List.range_eq_range', List.range_eq_range', ← List.map_append]
    have := List.range'_append_1 0 bt.objects.length objs.length
    rw [Nat.zero_add] at this
    rw [this, Nat.add_comm]

/-- C3: after any sequence of `append()` calls, the identifiers of the
stored objects are exactly `0, 1, 2, …` in append order (`ID = idx +
len(self._objects)` with the stored list only extended after the loop), so
they are unique and strictly increasing, and the `i`-th object ever
appended receives identifier `i`. -/
theorem object_ids_sequential (v : Bool) (batches : List (List PyTrackObject)) :
    (((appendBatches (btrackInit v) batches).objects.map (·.ID)).Pairwise (· < ·)) ∧
    ∀ i (hi : i < (appendBatches (btrackInit v) batches).objects.length),
      ((appendBatches (btrackInit v) batches).objects[i]).ID = (i : Int) := by
  have hmap := appendBatches_objects_ids batches (btrackInit v) (by rfl)
  constructor
  · rw [hmap]
    exact (List.pairwise_lt_range _).map Int.ofNat
      (fun a b hab => Int.ofNat_lt.mpr hab)
  · intro i hi
    have hlen : i < ((appendBatches (btrackInit v) batches).objects.map (·.ID)).length := by
      simpa using hi
    have h1 := List.getElem_of_eq hmap hlen
    simp only [List.getElem_map, List.getElem_range] at h1
    exact h1

/-- C3, witness: three objects appended in two batches; the third object
(index 2) has identifier 2. -/
theorem object_ids_sequential_witness :
    ((appendBatches (btrackInit true)
        [[{ t := 0 }, { t := 1 }], [{ t := 2 }]]).objects.get ⟨2, by decide⟩).ID
      = (2 : Int) := by
  have h := (object_ids_sequential true [[{ t := 0 }, { t := 1 }], [{ t := 2 }]]).2
      2 (by decide)
  simpa [List.get_eq_getElem] using h

/-- C4: calling `hypotheses()` — and `optimise()`, which first reads
`self.hypothesis_model.name` and then invokes it — with no hypothesis model
configured raises an exception (in the code an `AttributeError`, the
spec's `HypothesisModelMissing`), for every hypothesis generator, optimiser
and merger the engine might implement. -/
theorem hypotheses_without_model_raises
    (ch : Engine → HypothesisModel → Nat → Nat → List Hypothesis)
    (sel : List Hypothesis → List Nat) (mg : Engine → List Nat → Engine)
    (bt : BayesianTracker) (h : bt.cfg.hypothesis_model = none) :
    hypothesesOp ch bt = Except.error PyErr.attributeError ∧
    optimiseOp ch sel mg bt = Except.error PyErr.attributeError := by
  rw [hypothesesOp, optimiseOp, h]
  exact ⟨rfl, rfl⟩

/-- C4, witness: the fresh tracker has no hypothesis model configured. -/
theorem hypotheses_without_model_raises_witness :
    hypothesesOp (fun _ _ _ _ => []) (btrackInit true)
        = Except.error PyErr.attributeError ∧
    optimiseOp (fun _ _ _ _ => []) (fun _ => []) (fun e _ => e) (btrackInit true)
        = Except.error PyErr.attributeError :=
  hypotheses_without_model_raises _ _ _ (btrackInit true) rfl

/-- C5: if the hypothesis set is empty, or the optimiser selects no
hypotheses, `optimise()` returns an empty list and the tracker state is
returned unchanged — `lib.merge` is never reached, so `n_tracks` and all
track data are the same before and after the call. -/
theorem optimise_empty_selection_no_merge
    (ch : Engine → HypothesisModel → Nat → Nat → List Hypothesis)
    (sel : List Hypothesis → List Nat) (mg : Engine → List Nat → Engine)
    (bt : BayesianTracker) (hm : HypothesisModel)
    (hhm : bt.cfg.hypothesis_model = some hm)
    (hemp : ch bt.engine hm bt.frameRangeInternal.1 bt.frameRangeInternal.2 = []
          ∨ sel (ch bt.engine hm bt.frameRangeInternal.1 bt.frameRangeInternal.2) = []) :
    optimiseOp ch sel mg bt = Except.ok ([], bt) := by
  rcases hemp with he | hs
  · simp [optimiseOp, hypothesesOp, hhm, he]
  · by_cases he : ch bt.engine hm bt.frameRangeInternal.1 bt.frameRangeInternal.2 = []
    · simp [optimiseOp, hypothesesOp, hhm, he]
    · simp [optimiseOp, hypothesesOp, hhm, he, hs]

/-- C5, witness: a configured tracker whose hypothesis generator produces
no hypotheses: `optimise()` returns `[]` and the state is unchanged. -/
theorem optimise_empty_selection_no_merge_witness :
    optimiseOp (fun _ _ _ _ => []) (fun _ => []) (fun e _ => e)
        (configureOp (btrackInit true) { hypothesis_model := some {} })
      = Except.ok ([], configureOp (btrackInit true) { hypothesis_model := some {} }) :=
  optimise_empty_selection_no_merge _ _ _ _ {} rfl (Or.inl rfl)

/-- C10: `append()` is not atomic on error.  If the input is `k > 0`
genuine objects followed by a non-`PyTrackObject`, a `TypeError` is raised
after the `k` objects have already been pushed to the engine and the
internal frame range updated, while `self._objects` (the `objects`
accessor) is not extended at all. -/
theorem append_not_atomic_on_error (bt : BayesianTracker)
    (goods : List PyTrackObject) (rest : List TrackItem) (_h : goods ≠ []) :
    appendOp bt (goods.map TrackItem.obj ++ TrackItem.other :: rest) =
      ({ bt with
          engine := { bt.engine with
            objects := bt.engine.objects ++ assignIDs bt.objects.length goods }
          frameRangeInternal :=
            (bt.frameRangeInternal.1, frameFold bt.frameRangeInternal.2 goods) },
       some PyErr.typeError) ∧
    (appendOp bt (goods.map TrackItem.obj ++ TrackItem.other :: rest)).1.objects
      = bt.objects := by
  have hl := appendLoop_map_obj_other goods rest bt.objects.length
      bt.frameRangeInternal.2
  constructor <;> simp [appendOp, hl]

/-! ## Engine lemmas: the per-frame sweep distributes the frame's objects -/

/-- The real (non-negative) references among a reference list. -/
def realFilter (l : List Int) : List Int :=
  l.filter (fun r => 0 ≤ r)

/-- All real object references across a list of tracklets. -/
def tracksRealRefs (ts : List EngTrack) : List Int :=
  realFilter ((ts.map (·.refs)).flatten)

theorem tracksRealRefs_cons (tr : EngTrack) (ts : List EngTrack) :
    tracksRealRefs (tr :: ts) = realFilter tr.refs ++ tracksRealRefs ts := by
  simp [tracksRealRefs, realFilter, List.filter_append]

theorem tracksRealRefs_append (ts us : List EngTrack) :
    tracksRealRefs (ts ++ us) = tracksRealRefs ts ++ tracksRealRefs us := by
  simp [tracksRealRefs, realFilter, List.filter_append]

theorem bestCandidate_mem (tr : EngTrack) (r2 : Int) :
    ∀ (objs : List PyTrackObject) (o : PyTrackObject),
      bestCandidate tr r2 objs = some o → o ∈ objs := by
  intro objs
  induction objs with
  | nil => intro o h; simp [bestCandidate] at h
  | cons a rest ih =>
    intro o h
    rw [bestCandidate] at h
    by_cases hd : dist2 tr a ≤ r2
    · rw [if_pos hd] at h
      cases hb : bestCandidate tr r2 rest with
      | none =>
        rw [hb] at h
        cases h
        exact List.mem_cons_self a rest
      | some c =>
        rw [hb] at h
        dsimp only at h
        by_cases hc : dist2 tr a ≤ dist2 tr c
        · rw [if_pos hc] at h
          cases h
          exact List.mem_cons_self a rest
        · rw [if_neg hc] at h
          cases h
          exact List.mem_cons_of_mem a (ih _ hb)
    · rw [if_neg hd] at h
      exact List.mem_cons_of_mem a (ih o h)

theorem assignFrame_remaining_subset (ml : Nat) (r2 : Int) (f : Nat) :
    ∀ (tracks : List EngTrack) (objs : List PyTrackObject) (nD : Nat),
      ∀ o ∈ (assignFrame ml r2 f tracks objs nD).2.1, o ∈ objs := by
  intro tracks
  induction tracks with
  | nil => intro objs nD o ho; simpa [assignFrame] using ho
  | cons tr rest ih =>
    intro objs nD o ho
    rw [assignFrame] at ho
    by_cases ht : tr.terminated
    · rw [if_pos ht] at ho
      exact ih objs nD o ho
    · rw [if_neg ht] at ho
      cases hb : bestCandidate tr r2 objs with
      | none =>
        rw [hb] at ho
        by_cases hl : ml < tr.lost + 1
        · rw [if_pos hl] at ho
          exact ih objs nD o ho
        · rw [if_neg hl] at ho
          exact ih objs (nD + 1) o ho
      | some c =>
        rw [hb] at ho
        exact List.mem_of_mem_erase (ih (objs.erase c) nD o ho)

theorem perm_shuffle {α : Type} (A X Y B M MM : List α) (a : α)
    (h1 : (X ++ Y).Perm (B ++ MM)) (h2 : M.Perm (a :: MM)) :
    (((A ++ [a]) ++ X) ++ Y).Perm ((A ++ B) ++ M) := by
  have e1 : ((A ++ [a]) ++ X) ++ Y = A ++ (a :: (X ++ Y)) := by simp
  have e2 : (A ++ B) ++ M = A ++ (B ++ M) := by simp
  rw [e1, e2]
  refine List.Perm.append_left A ?_
  exact (h1.cons a).trans
    (List.perm_middle.symm.trans (h2.symm.append_left B))

/-- The assignment sweep conserves real references: the real references of
the updated tracklets plus the identifiers of the unclaimed objects are a
permutation of the original real references plus all the frame's object
identifiers.  (Dummy references are negative and drop out.) -/
theorem assignFrame_realRefs (ml : Nat) (r2 : Int) (f : Nat) :
    ∀ (tracks : List EngTrack) (objs : List PyTrackObject) (nD : Nat),
      (∀ o ∈ objs, 0 ≤ o.ID) →
      ((tracksRealRefs (assignFrame ml r2 f tracks objs nD).1) ++
        ((assignFrame ml r2 f tracks objs nD).2.1).map (·.ID)).Perm
        ((tracksRealRefs tracks) ++ objs.map (·.ID)) := by
  intro tracks
  induction tracks with
  | nil =>
    intro objs nD _h
    simp [assignFrame, tracksRealRefs, realFilter]
  | cons tr rest ih =>
    intro objs nD h
    rw [assignFrame]
    by_cases ht : tr.terminated
    · rw [if_pos ht]
      rw [tracksRealRefs_cons, tracksRealRefs_cons, List.append_assoc,
        List.append_assoc]
      exact (ih objs nD h).append_left (realFilter tr.refs)
    · rw [if_neg ht]
      cases hb : bestCandidate tr r2 objs with
      | some o =>
        have ho : o ∈ objs := bestCandidate_mem tr r2 objs o hb
        have hid : (0 : Int) ≤ o.ID := h o ho
        have h' : ∀ o' ∈ objs.erase o, (0 : Int) ≤ o'.ID :=
          fun o' ho' => h o' (List.mem_of_mem_erase ho')
        have hperm := ih (objs.erase o) nD h'
        have hM : (objs.map (·.ID)).Perm (o.ID :: (objs.erase o).map (·.ID)) :=
          (List.perm_cons_erase ho).map (·.ID)
        rw [tracksRealRefs_cons, tracksRealRefs_cons]
        have hext : realFilter (extendTrack tr o f).refs
            = realFilter tr.refs ++ [o.ID] := by
          simp [extendTrack, realFilter, List.filter_append, hid]
        rw [hext]
        exact perm_shuffle _ _ _ _ _ _ _ hperm hM
      | none =>
        by_cases hl : ml < tr.lost + 1
        · rw [if_pos hl]
          rw [tracksRealRefs_cons, tracksRealRefs_cons, List.append_assoc,
            List.append_assoc]
          exact (ih objs nD h).append_left _
        · rw [if_neg hl]
          rw [tracksRealRefs_cons, tracksRealRefs_cons]
          have hdum : realFilter (tr.refs ++ [-((nD : Int) + 1)])
              = realFilter tr.refs := by
            simp [realFilter, List.filter_append]
            omega
          simp only [hdum]
          rw [List.append_assoc, List.append_assoc]
          exact (ih objs (nD + 1) h).append_left _

/-- Every unclaimed object spawns a singleton tracklet holding exactly its
own (non-negative) identifier. -/
theorem spawnTracks_realRefs (f : Nat) :
    ∀ (objs : List PyTrackObject) (label : Nat),
      (∀ o ∈ objs, 0 ≤ o.ID) →
      tracksRealRefs (spawnTracks f label objs) = objs.map (·.ID) := by
  intro objs
  induction objs with
  | nil => intro label _h; rfl
  | cons o rest ih =>
    intro label h
    have hid : (0 : Int) ≤ o.ID := h o (List.mem_cons_self o rest)
    rw [spawnTracks, tracksRealRefs_cons, List.map_cons,
      ih (label + 1) (fun o' ho' => h o' (List.mem_cons_of_mem o ho'))]
    simp [realFilter, hid]

theorem processFrame_objects (e : Engine) :
    (processFrame e).objects = e.objects := rfl

theorem processFrame_frame (e : Engine) :
    (processFrame e).frame = e.frame + 1 := rfl

theorem engineLimit_processFrame (e : Engine) :
    engineLimit (processFrame e) = engineLimit e := rfl

/-- Processing one frame adds exactly the identifiers of that frame's
objects to the real references (up to permutation). -/
theorem processFrame_realRefs (e : Engine)
    (hID : ∀ o ∈ e.objects, 0 ≤ o.ID) :
    (tracksRealRefs (processFrame e).tracks).Perm
      (tracksRealRefs e.tracks ++ (frameObjects e).map (·.ID)) := by
  have hfo : ∀ o ∈ frameObjects e, (0 : Int) ≤ o.ID :=
    fun o ho => hID o (List.mem_of_mem_filter ho)
  have hrem : ∀ o ∈ (frameAssign e).2.1, (0 : Int) ≤ o.ID :=
    fun o ho => hfo o
      (assignFrame_remaining_subset e.maxLost e.radius2 e.frame e.tracks
        (frameObjects e) e.nDummies o ho)
  have hspawn := spawnTracks_realRefs e.frame (frameAssign e).2.1
    ((frameAssign e).1.length + 1) hrem
  have hassign := assignFrame_realRefs e.maxLost e.radius2 e.frame e.tracks
    (frameObjects e) e.nDummies hfo
  have e1 : tracksRealRefs (processFrame e).tracks
      = tracksRealRefs (frameAssign e).1 ++ ((frameAssign e).2.1).map (·.ID) := by
    simp only [processFrame]
    rw [tracksRealRefs_append, hspawn]
  rw [e1]
  exact hassign

theorem t_le_foldr_max (objs : List PyTrackObject) :
    ∀ o ∈ objs, o.t ≤ objs.foldr (fun o a => max o.t a) 0 := by
  induction objs with
  | nil => intro o ho; simp at ho
  | cons a rest ih =>
    intro o ho
    rw [List.foldr_cons]
    rcases List.mem_cons.mp ho with h | h
    · subst h; exact Nat.le_max_left _ _
    · exact Nat.le_trans (ih o h) (Nat.le_max_right _ _)

theorem mem_t_lt_engineLimit (e : Engine) (o : PyTrackObject)
    (ho : o ∈ e.objects) : o.t < engineLimit e := by
  have := t_le_foldr_max e.objects o ho
  rw [engineLimit]
  omega

/-- Splitting a filter along a disjoint disjunction of predicates. -/
theorem filter_or_perm {α : Type} (l : List α) (p q r : α → Bool)
    (hr : ∀ a, r a = (p a || q a)) (hpq : ∀ a, ¬(p a = true ∧ q a = true)) :
    (l.filter p ++ l.filter q).Perm (l.filter r) := by
  induction l with
  | nil => simp
  | cons a l ih =>
    cases hp : p a with
    | true =>
      have hq : q a = false := by
        cases hq : q a
        · rfl
        · exact absurd ⟨hp, hq⟩ (hpq a)
      have hra : r a = true := by rw [hr a, hp]; rfl
      simp only [List.filter_cons, hp, hq, hra, if_true, if_false,
        List.cons_append]
      exact ih.cons a
    | false =>
      cases hq : q a with
      | true =>
        have hra : r a = true := by rw [hr a, hp, hq]; rfl
        simp only [List.filter_cons, hp, hq, hra, if_true, if_false]
        exact List.perm_middle.trans (ih.cons a)
      | false =>
        have hra : r a = false := by rw [hr a, hp, hq]; rfl
        simp only [List.filter_cons, hp, hq, hra, if_false]
        exact ih

/-- Stepping `k` frames adds exactly the identifiers of the objects in the
processed frame window to the real references. -/
theorem engineStepN_realRefs :
    ∀ (k : Nat) (e : Engine), (∀ o ∈ e.objects, 0 ≤ o.ID) →
      (tracksRealRefs (engineStepN e k).tracks).Perm
        (tracksRealRefs e.tracks ++
          (e.objects.filter
            (fun o => decide (e.frame ≤ o.t ∧ o.t < e.frame + k))).map (·.ID)) := by
  intro k
  induction k with
  | zero =>
    intro e _h
    rw [engineStepN]
    have hnil : e.objects.filter
        (fun o => decide (e.frame ≤ o.t ∧ o.t < e.frame + 0)) = [] := by
      rw [List.filter_eq_nil_iff]
      intro a _ha
      simp
    rw [hnil]
    simp
  | succ k ih =>
    intro e h
    rw [engineStepN]
    by_cases hstop : engineLimit e ≤ e.frame
    · rw [if_pos hstop]
      have hnil : e.objects.filter
          (fun o => decide (e.frame ≤ o.t ∧ o.t < e.frame + (k + 1))) = [] := by
        rw [List.filter_eq_nil_iff]
        intro a ha
        have := mem_t_lt_engineLimit e a ha
        simp
        omega
      rw [hnil]
      simp
    · rw [if_neg hstop]
      have h' : ∀ o ∈ (processFrame e).objects, (0 : Int) ≤ o.ID := by
        rw [processFrame_objects]; exact h
      have h1 := ih (processFrame e) h'
      simp only [processFrame_objects, processFrame_frame] at h1
      have h2 := processFrame_realRefs e h
      have h3 := h1.trans (h2.append_right _)
      refine h3.trans ?_
      rw [List.append_assoc, ← List.map_append]
      refine List.Perm.append_left _ (List.Perm.map _ ?_)
      exact filter_or_perm e.objects
        (fun o => decide (o.t = e.frame))
        (fun o => decide (e.frame + 1 ≤ o.t ∧ o.t < e.frame + 1 + k))
        (fun o => decide (e.frame ≤ o.t ∧ o.t < e.frame + (k + 1)))
        (fun a => by
          rw [← Bool.decide_or]
          exact decide_eq_decide.mpr (by omega))
        (fun a => by simp; omega)

theorem engineStepN_stop (e : Engine) (h : engineLimit e ≤ e.frame) :
    ∀ n, engineStepN e n = e := by
  intro n
  cases n with
  | zero => rfl
  | succ n => rw [engineStepN, if_pos h]

theorem engineStepN_objects (k : Nat) :
    ∀ e : Engine, (engineStepN e k).objects = e.objects := by
  induction k with
  | zero => intro e; rfl
  | succ k ih =>
    intro e
    rw [engineStepN]
    by_cases hstop : engineLimit e ≤ e.frame
    · rw [if_pos hstop]
    · rw [if_neg hstop, ih (processFrame e), processFrame_objects]

theorem engineLimit_stepN (k : Nat) (e : Engine) :
    engineLimit (engineStepN e k) = engineLimit e := by
  rw [engineLimit, engineLimit, engineStepN_objects]

theorem engineStepN_add (m n : Nat) :
    ∀ e : Engine, engineStepN e (m + n) = engineStepN (engineStepN e m) n := by
  induction m with
  | zero =>
    intro e
    rw [Nat.zero_add]
    rfl
  | succ m ih =>
    intro e
    by_cases hstop : engineLimit e ≤ e.frame
    · simp [engineStepN_stop e hstop]
    · have hl : m + 1 + n = (m + n) + 1 := by omega
      rw [hl]
      have h1 : engineStepN e ((m + n) + 1) = engineStepN (processFrame e) (m + n) := by
        rw [engineStepN, if_neg hstop]
      have h2 : engineStepN e (m + 1) = engineStepN (processFrame e) m := by
        rw [engineStepN, if_neg hstop]
      rw [h1, h2, ih (processFrame e)]

/-- `step(n)` advances the frame counter by exactly `n`, capped at the
total number of frames. -/
theorem engineStepN_frame (n : Nat) :
    ∀ e : Engine, e.frame ≤ engineLimit e →
      (engineStepN e n).frame = min (e.frame + n) (engineLimit e) := by
  induction n with
  | zero =>
    intro e h
    rw [engineStepN]
    omega
  | succ n ih =>
    intro e h
    rw [engineStepN]
    by_cases hstop : engineLimit e ≤ e.frame
    · rw [if_pos hstop]
      omega
    · rw [if_neg hstop]
      have h' : (processFrame e).frame ≤ engineLimit (processFrame e) := by
        rw [processFrame_frame, engineLimit_processFrame]
        omega
      have hfr := ih (processFrame e) h'
      rw [processFrame_frame, engineLimit_processFrame] at hfr
      rw [hfr]
      omega

/-- Enough steps complete the tracking: stepping at least the number of
remaining frames is the same as `track()`. -/
theorem engineStepN_complete (e : Engine) (n : Nat)
    (h : engineLimit e - e.frame ≤ n) : engineStepN e n = engineTrack e := by
  rw [engineTrack]
  by_cases hf : e.frame ≤ engineLimit e
  · have hsplit : n = (engineLimit e - e.frame) + (n - (engineLimit e - e.frame)) := by
      omega
    rw [hsplit, engineStepN_add]
    apply engineStepN_stop
    have hfr := engineStepN_frame (engineLimit e - e.frame) e hf
    rw [engineLimit_stepN, hfr]
    omega
  · have hstop : engineLimit e ≤ e.frame := by omega
    rw [engineStepN_stop e hstop n, engineStepN_stop e hstop _]

/-- Running `track()` on a fresh engine (no tracklets, frame 0) produces
tracks whose real references are a permutation of all the appended
objects' identifiers. -/
theorem engineTrack_realRefs_fresh (e : Engine) (ht : e.tracks = [])
    (hf : e.frame = 0) (hID : ∀ o ∈ e.objects, 0 ≤ o.ID) :
    (tracksRealRefs (engineTrack e).tracks).Perm (e.objects.map (·.ID)) := by
  have h := engineStepN_realRefs (engineLimit e - e.frame) e hID
  rw [engineTrack]
  simp only [hf, ht] at h ⊢
  have hall : e.objects.filter
      (fun o => decide (0 ≤ o.t ∧ o.t < 0 + (engineLimit e - 0))) = e.objects := by
    rw [List.filter_eq_self]
    intro a ha
    have := mem_t_lt_engineLimit e a ha
    simp
    omega
  rw [hall] at h
  simpa [tracksRealRefs, realFilter] using h

/-- C10, witness: one good object at frame 3 followed by a bad element:
the engine gains the object (ID 0), the internal frame range becomes
`(0, 3)`, the stored-objects list stays empty, and a `TypeError` is
raised. -/
theorem append_not_atomic_on_error_witness :
    appendOp (btrackInit true) [TrackItem.obj { t := 3 }, TrackItem.other] =
      ({ btrackInit true with
          engine := { (btrackInit true).engine with
            objects := [{ ID := 0, t := 3 }] }
          frameRangeInternal := (0, 3) },
       some PyErr.typeError) := by
  have h := (append_not_atomic_on_error (btrackInit true) [{ t := 3 }] []
      (by decide)).1
  exact h.trans (by decide)

/-! ## The full pipeline: configure, append, track -/

/-- The standard usage pipeline from the class docstring: construct the
tracker, `configure`, `append` the detections (in any number of batches),
and `track()`. -/
def pipeline (v : Bool) (cfg : TrackerConfig)
    (batches : List (List PyTrackObject)) : BayesianTracker :=
  trackResultState (appendBatches (configureOp (btrackInit v) cfg) batches)

theorem appendBatches_preserves (bs : List (List PyTrackObject)) :
    ∀ bt : BayesianTracker,
      (appendBatches bt bs).initialised = bt.initialised ∧
      (appendBatches bt bs).engine.tracks = bt.engine.tracks ∧
      (appendBatches bt bs).engine.frame = bt.engine.frame ∧
      (appendBatches bt bs).engine.nDummies = bt.engine.nDummies ∧
      (appendBatches bt bs).engine.maxLost = bt.engine.maxLost ∧
      (appendBatches bt bs).engine.radius2 = bt.engine.radius2 := by
  induction bs with
  | nil => intro bt; exact ⟨rfl, rfl, rfl, rfl, rfl, rfl⟩
  | cons objs rest ih =>
    intro bt
    obtain ⟨h1, h2, h3, h4, h5, h6⟩ := ih (appendObjects bt objs)
    rw [appendObjects_eq] at h1 h2 h3 h4 h5 h6
    rw [appendBatches, appendObjects_eq]
    exact ⟨h1, h2, h3, h4, h5, h6⟩

theorem assignIDs_append (l₁ l₂ : List PyTrackObject) :
    ∀ n, assignIDs n (l₁ ++ l₂)
      = assignIDs n l₁ ++ assignIDs (n + l₁.length) l₂ := by
  induction l₁ with
  | nil => intro n; simp [assignIDs]
  | cons o rest ih =>
    intro n
    rw [List.cons_append, assignIDs, assignIDs, ih (n + 1), List.cons_append,
      List.length_cons, show n + (rest.length + 1) = n + 1 + rest.length by omega]

theorem appendBatches_all_objects (bs : List (List PyTrackObject)) :
    ∀ bt : BayesianTracker,
      (appendBatches bt bs).engine.objects
        = bt.engine.objects ++ assignIDs bt.objects.length bs.flatten ∧
      (appendBatches bt bs).objects
        = bt.objects ++ assignIDs bt.objects.length bs.flatten := by
  induction bs with
  | nil => intro bt; simp [appendBatches, assignIDs]
  | cons objs rest ih =>
    intro bt
    obtain ⟨h1, h2⟩ := ih (appendObjects bt objs)
    rw [appendObjects_eq] at h1 h2
    rw [appendBatches, appendObjects_eq]
    constructor
    · rw [h1]
      simp only [List.length_append, assignIDs_length, List.flatten_cons,
        assignIDs_append, List.append_assoc]
    · rw [h2]
      simp only [List.length_append, assignIDs_length, List.flatten_cons,
        assignIDs_append, List.append_assoc]

theorem trackResultState_of_initialised (bt : BayesianTracker)
    (h : bt.initialised = true) :
    trackResultState bt = { bt with engine := engineTrack bt.engine } := by
  simp [trackResultState, trackOp, h]

theorem pipeline_eq (v : Bool) (cfg : TrackerConfig)
    (batches : List (List PyTrackObject)) :
    pipeline v cfg batches =
      { appendBatches (configureOp (btrackInit v) cfg) batches with
        engine := engineTrack
          (appendBatches (configureOp (btrackInit v) cfg) batches).engine } := by
  rw [pipeline]
  apply trackResultState_of_initialised
  exact ((appendBatches_preserves batches (configureOp (btrackInit v) cfg)).1).trans rfl

theorem engine_eq_of_fields {e : Engine} {os : List PyTrackObject}
    {ts : List EngTrack} {f nD ml : Nat} {r2 : Int}
    (h1 : e.objects = os) (h2 : e.tracks = ts) (h3 : e.frame = f)
    (h4 : e.nDummies = nD) (h5 : e.maxLost = ml) (h6 : e.radius2 = r2) :
    e = ⟨os, ts, f, nD, ml, r2⟩ := by
  cases e
  dsimp only at h1 h2 h3 h4 h5 h6
  subst h1; subst h2; subst h3; subst h4; subst h5; subst h6
  rfl

/-- The engine that `track()` runs over is fully determined by the
configuration and the concatenation of all appended objects. -/
theorem pipeline_engine_pre (v : Bool) (cfg : TrackerConfig)
    (batches : List (List PyTrackObject)) :
    (appendBatches (configureOp (btrackInit v) cfg) batches).engine =
      ⟨assignIDs 0 batches.flatten, [], 0, 0,
        (cfg.motion_model.map (·.max_lost)).getD 1,
        cfg.max_search_radius * cfg.max_search_radius⟩ := by
  obtain ⟨-, h2, h3, h4, h5, h6⟩ :=
    appendBatches_preserves batches (configureOp (btrackInit v) cfg)
  obtain ⟨ho, -⟩ :=
    appendBatches_all_objects batches (configureOp (btrackInit v) cfg)
  exact engine_eq_of_fields (ho.trans (by rfl)) (h2.trans rfl) (h3.trans rfl)
    (h4.trans rfl) (h5.trans rfl) (h6.trans rfl)

theorem pipeline_engine (v : Bool) (cfg : TrackerConfig)
    (batches : List (List PyTrackObject)) :
    (pipeline v cfg batches).engine
      = engineTrack ⟨assignIDs 0 batches.flatten, [], 0, 0,
          (cfg.motion_model.map (·.max_lost)).getD 1,
          cfg.max_search_radius * cfg.max_search_radius⟩ := by
  rw [pipeline_eq]
  show engineTrack
      (appendBatches (configureOp (btrackInit v) cfg) batches).engine = _
  rw [pipeline_engine_pre]

/-! ## Counting lemmas -/

theorem count_ofNat_range (N i : Nat) (h : i < N) :
    ((List.range N).map Int.ofNat).count (Int.ofNat i) = 1 := by
  have hnd : ((List.range N).map Int.ofNat).Nodup :=
    (List.nodup_range N).map (fun a b hab => Int.ofNat.inj hab)
  have hm : Int.ofNat i ∈ (List.range N).map Int.ofNat :=
    List.mem_map.mpr ⟨i, List.mem_range.mpr h, rfl⟩
  exact List.count_eq_one_of_mem hnd hm

/-- If a value occurs exactly once across the concatenation of a list of
lists, then exactly one of the lists contains it. -/
theorem count_one_countP_mem (a : Int) :
    ∀ ls : List (List Int), ls.flatten.count a = 1 →
      ls.countP (fun l => decide (a ∈ l)) = 1 := by
  intro ls
  induction ls with
  | nil => intro h; simp at h
  | cons l ls ih =>
    intro h
    rw [List.flatten_cons, List.count_append] at h
    rw [List.countP_cons]
    by_cases hmem : a ∈ l
    · have hpos : 0 < l.count a := List.count_pos_iff.mpr hmem
      have hnone : ls.countP (fun l => decide (a ∈ l)) = 0 := by
        rw [List.countP_eq_zero]
        intro l' hl'
        simp only [decide_eq_true_eq]
        intro hmem'
        have hfl : a ∈ ls.flatten := List.mem_flatten.mpr ⟨l', hl', hmem'⟩
        rw [← List.count_pos_iff] at hfl
        omega
      simp [hnone, hmem]
    · have h0 : l.count a = 0 := List.count_eq_zero.mpr hmem
      have h1 : ls.flatten.count a = 1 := by omega
      simp [hmem, ih h1]

theorem length_filter_split (l : List Int) :
    (l.filter (fun r => 0 ≤ r)).length + (l.filter (fun r => r < 0)).length
      = l.length := by
  induction l with
  | nil => rfl
  | cons a l ih =>
    by_cases h : (0 : Int) ≤ a
    · have h2 : ¬ (a < 0) := by omega
      simp [List.filter_cons, h, h2]
      omega
    · have h2 : a < 0 := by omega
      simp [List.filter_cons, h, h2]
      omega

theorem sumTrackLengths_eq_length_allRefs (bt : BayesianTracker) :
    sumTrackLengths bt = (allRefs bt).length := by
  rw [sumTrackLengths, allRefs, refsOf, List.length_flatten, List.map_map]
  rfl

/-- The real references of the tracked pipeline are a permutation of all
object identifiers, which are `0, …, N-1`. -/
theorem pipeline_realRefs_perm (v : Bool) (cfg : TrackerConfig)
    (batches : List (List PyTrackObject)) :
    (realFilter (allRefs (pipeline v cfg batches))).Perm
      ((pipeline v cfg batches).objects.map (·.ID)) ∧
    (pipeline v cfg batches).objects.map (·.ID)
      = (List.range (pipeline v cfg batches).objects.length).map Int.ofNat := by
  have hids := appendBatches_objects_ids batches (configureOp (btrackInit v) cfg)
    (by rfl)
  obtain ⟨hengo, hobjs⟩ :=
    appendBatches_all_objects batches (configureOp (btrackInit v) cfg)
  have hsame : (appendBatches (configureOp (btrackInit v) cfg) batches).engine.objects
      = (appendBatches (configureOp (btrackInit v) cfg) batches).objects :=
    hengo.trans hobjs.symm
  obtain ⟨-, h2, h3, -, -, -⟩ :=
    appendBatches_preserves batches (configureOp (btrackInit v) cfg)
  have hID : ∀ o ∈ (appendBatches (configureOp (btrackInit v) cfg) batches).engine.objects,
      (0 : Int) ≤ o.ID := by
    intro o ho
    rw [hsame] at ho
    have hmm : o.ID ∈ (appendBatches (configureOp (btrackInit v) cfg) batches).objects.map (·.ID) :=
      List.mem_map_of_mem _ ho
    rw [hids] at hmm
    obtain ⟨j, -, hj⟩ := List.mem_map.mp hmm
    exact hj ▸ Int.ofNat_nonneg j
  have hperm := engineTrack_realRefs_fresh
    (appendBatches (configureOp (btrackInit v) cfg) batches).engine
    (h2.trans rfl) (h3.trans rfl) hID
  rw [hsame] at hperm
  constructor
  · have hobj : (pipeline v cfg batches).objects
        = (appendBatches (configureOp (btrackInit v) cfg) batches).objects := by
      rw [pipeline_eq]
    have hall : realFilter (allRefs (pipeline v cfg batches))
        = tracksRealRefs (engineTrack
            (appendBatches (configureOp (btrackInit v) cfg) batches).engine).tracks := by
      rw [allRefs, refsOf, pipeline_eq, tracksRealRefs]
    rw [hall, hobj]
    exact hperm
  · have hobj : (pipeline v cfg batches).objects
        = (appendBatches (configureOp (btrackInit v) cfg) batches).objects := by
      rw [pipeline_eq]
    rw [hobj]
    exact hids

/-- C6: after `track()` has run over the appended objects, the tracks
partition the real object set: every non-dummy object identifier occurs
exactly once in the concatenation of all track `refs`, and hence appears
in the `refs` of exactly one track. -/
theorem tracks_partition_objects (v : Bool) (cfg : TrackerConfig)
    (batches : List (List PyTrackObject)) (i : Nat)
    (hi : i < (pipeline v cfg batches).objects.length) :
    (allRefs (pipeline v cfg batches)).count (Int.ofNat i) = 1 ∧
    (refsOf (pipeline v cfg batches)).countP
        (fun rs => decide (Int.ofNat i ∈ rs)) = 1 := by
  obtain ⟨hperm, hids⟩ := pipeline_realRefs_perm v cfg batches
  have hcount : (realFilter (allRefs (pipeline v cfg batches))).count (Int.ofNat i)
      = 1 := by
    rw [hperm.count_eq, hids]
    exact count_ofNat_range _ i hi
  have hflt : (allRefs (pipeline v cfg batches)).count (Int.ofNat i) = 1 := by
    rw [← hcount]
    exact (List.count_filter (by simp)).symm
  exact ⟨hflt, count_one_countP_mem (Int.ofNat i)
    (refsOf (pipeline v cfg batches)) hflt⟩

/-- C6, witness: two detections in consecutive frames, close together:
object 1 appears in exactly one track. -/
theorem tracks_partition_objects_witness :
    (allRefs (pipeline true { motion_model := some {}, max_search_radius := 10 }
        [[{ t := 0 }, { t := 1, x := 1 }]])).count (Int.ofNat 1) = 1 ∧
    (refsOf (pipeline true { motion_model := some {}, max_search_radius := 10 }
        [[{ t := 0 }, { t := 1, x := 1 }]])).countP
        (fun rs => decide (Int.ofNat 1 ∈ rs)) = 1 :=
  tracks_partition_objects true _ _ 1 (by decide)

/-- C7: `n_dummies` (the number of negative references) equals the sum of
all track lengths minus the number of real appended objects, and that
difference is non-negative (the object count never exceeds the total
length). -/
theorem n_dummies_conservation (v : Bool) (cfg : TrackerConfig)
    (batches : List (List PyTrackObject)) :
    n_dummies (pipeline v cfg batches)
      = sumTrackLengths (pipeline v cfg batches)
          - (pipeline v cfg batches).objects.length ∧
    (pipeline v cfg batches).objects.length
      ≤ sumTrackLengths (pipeline v cfg batches) := by
  obtain ⟨hperm, -⟩ := pipeline_realRefs_perm v cfg batches
  have hlen : (realFilter (allRefs (pipeline v cfg batches))).length
      = (pipeline v cfg batches).objects.length := by
    rw [hperm.length_eq, List.length_map]
  have hsplit := length_filter_split (allRefs (pipeline v cfg batches))
  have hsum := sumTrackLengths_eq_length_allRefs (pipeline v cfg batches)
  have hnd : n_dummies (pipeline v cfg batches)
      = ((allRefs (pipeline v cfg batches)).filter (fun r => r < 0)).length := rfl
  have hreal : (realFilter (allRefs (pipeline v cfg batches))).length
      = ((allRefs (pipeline v cfg batches)).filter (fun r => 0 ≤ r)).length := rfl
  constructor
  · omega
  · omega

/-- C8: the whole pipeline is deterministic: running `track()` on freshly
constructed engines with identical configuration and identical appended
objects (regardless of batching or verbosity) produces identical LBEP
tables. -/
theorem track_deterministic_lbep (v v' : Bool) (cfg : TrackerConfig)
    (batches batches' : List (List PyTrackObject))
    (h : batches.flatten = batches'.flatten) :
    lbep (pipeline v cfg batches) = lbep (pipeline v' cfg batches') := by
  rw [lbep, lbep, pipeline_engine, pipeline_engine, h]

/-- C8, witness: the same two detections appended as two batches on one
engine and as one batch on another give the same LBEP table. -/
theorem track_deterministic_lbep_witness :
    lbep (pipeline true { motion_model := some {} } [[{ t := 0 }], [{ t := 1 }]])
      = lbep (pipeline false { motion_model := some {} } [[{ t := 0 }, { t := 1 }]]) :=
  track_deterministic_lbep true false _ _ _ rfl

theorem stepFold_sum (ns : List Nat) :
    ∀ bt : BayesianTracker, bt.initialised = true →
      stepFold bt ns = { bt with engine := engineStepN bt.engine ns.sum } := by
  induction ns with
  | nil => intro bt _h; rfl
  | cons n ns ih =>
    intro bt h
    have hstep : stepOp bt n
        = Except.ok (some (mkStats (engineStepN bt.engine n)),
            { bt with engine := engineStepN bt.engine n }) := by
      simp [stepOp, h]
    rw [stepFold, hstep]
    show stepFold { bt with engine := engineStepN bt.engine n } ns = _
    rw [ih { bt with engine := engineStepN bt.engine n } h, List.sum_cons,
      engineStepN_add]

/-- C9: paged tracking is equivalent to tracking in one call.  For every
configured tracker, stepping through any schedule of pages covering the
remaining frames gives exactly the final state of a single `track()` call;
moreover each `step(n)` returns aggregate statistics and advances the
engine by `n` frames (capped at the end of the frame range). -/
theorem step_paging_equivalent (bt : BayesianTracker) (ns : List Nat) (n : Nat)
    (h1 : bt.initialised = true)
    (h2 : engineLimit bt.engine - bt.engine.frame ≤ ns.sum)
    (h3 : bt.engine.frame ≤ engineLimit bt.engine) :
    stepFold bt ns = { bt with engine := engineTrack bt.engine } ∧
    trackOp bt = Except.ok (some (mkStats (engineTrack bt.engine)), stepFold bt ns) ∧
    stepOp bt n = Except.ok (some (mkStats (engineStepN bt.engine n)),
      { bt with engine := engineStepN bt.engine n }) ∧
    (engineStepN bt.engine n).frame
      = min (bt.engine.frame + n) (engineLimit bt.engine) := by
  have hfold := stepFold_sum ns bt h1
  have hfinal : stepFold bt ns = { bt with engine := engineTrack bt.engine } := by
    rw [hfold, engineStepN_complete bt.engine ns.sum h2]
  refine ⟨hfinal, ?_, ?_, engineStepN_frame n bt.engine h3⟩
  · rw [hfinal]
    simp [trackOp, h1]
  · simp [stepOp, h1]

/-- A small configured tracker with three detections, used as the paging
witness input. -/
def pagedDemoTracker : BayesianTracker :=
  appendObjects (configureOp (btrackInit true) { motion_model := some {} })
    [{ t := 0 }, { t := 1, x := 1 }, { t := 2, x := 2 }]

/-- C9, witness: stepping the demo tracker in pages of 1 and 2 frames
reaches exactly the `track()` state, and one step advances one frame. -/
theorem step_paging_equivalent_witness :
    stepFold pagedDemoTracker [1, 2]
      = { pagedDemoTracker with engine := engineTrack pagedDemoTracker.engine } ∧
    (engineStepN pagedDemoTracker.engine 1).frame
      = min (pagedDemoTracker.engine.frame + 1) (engineLimit pagedDemoTracker.engine) := by
  have h := step_paging_equivalent pagedDemoTracker [1, 2] 1 rfl (by decide) (by decide)
  exact ⟨h.1, h.2.2.2⟩

end BTrack
